import Mathlib

/-!
Verification of the `DynCast` runtime interface-casting mechanism of the
Nexus repository, as implemented in `src/util/dyn_cast/macros.rs` (the
`DynCast!` generator), `src/util/dyn_cast/mod.rs` (the result wrappers and
the `DynCastExt` extension API), and their near-duplicates in
`nxs_interface_macros/src/dyn_cast.rs` and
`nxs_interface/src/util/dyn_cast.rs`.

The embedding models Rust runtime type identifiers (`TypeId`) of the types
occurring in the mechanism: the concrete target type, and trait-object
types `dyn B + A1 + ... + Ak` formed from one base trait and a set of auto
traits.  Since in Rust the `TypeId` of a trait object does not depend on
the order in which its auto traits are written, a trait-object identifier
carries a `Finset` of auto traits.
-/

namespace DynCastModel

/-- The auto traits recognised by the generator, from the `AutoTrait` enum
in `nxs_interface_macros/src/dyn_cast.rs` and STATE 1 of the `DynCast!`
generator in `src/util/dyn_cast/macros.rs`. -/
inductive AutoTrait where
  | Send | Sync | Unpin | UnwindSafe | RefUnwindSafe
deriving DecidableEq, Repr

/-- A base trait usable in a castable trait-object type: `std::any::Any`,
the `DynCast` trait itself (both always added by the generator), or a
declared interface trait, identified by a numeric name. -/
inductive BaseTrait where
  | any | dynCast | decl (name : Nat)
deriving DecidableEq, Repr

/-- A runtime type identifier (Rust `std::any::TypeId`) for the types that
take part in casting: a concrete type, or a trait-object type given by its
base trait and its set of auto traits. -/
inductive TypeId where
  | concrete (name : Nat)
  | view (base : BaseTrait) (markers : Finset AutoTrait)
deriving DecidableEq

/-- One step of the powerset computation of STATE 2 of the `DynCast!`
generator: given the accumulated list of auto-trait sets and the next
declared auto trait `a`, keep every accumulated set and also append `a`
to a copy of each. -/
def autoSetsStep (acc : List (List AutoTrait)) (a : AutoTrait) :
    List (List AutoTrait) :=
  acc ++ acc.map (fun A => A ++ [a])

/-- STATE 2 of the `DynCast!` generator: all subsets of the declared list
of auto traits, starting from the singleton list holding the empty set. -/
def autoSets (as : List AutoTrait) : List (List AutoTrait) :=
  as.foldl autoSetsStep [[]]

/-- The list of base traits after the INPUT stage of the generator, which
adds `::std::any::Any` and `DynCast` in front of the declared base
traits. -/
def allBases (bs : List Nat) : List BaseTrait :=
  BaseTrait.any :: BaseTrait.dynCast :: bs.map BaseTrait.decl

/-- STATE 2 finish and STATE 3 of the `DynCast!` generator: the list of
castable types, seeded with the concrete target type and extended, for
each base trait in order, with every trait object formed from that base
trait and one of the computed auto-trait subsets. -/
def castTypes (target : Nat) (bs : List Nat) (as : List AutoTrait) :
    List TypeId :=
  TypeId.concrete target ::
    (allBases bs).flatMap
      (fun b => (autoSets as).map (fun A => TypeId.view b A.toFinset))

/-- A `DynCast!` invocation: the target type, the declared base traits,
and the declared auto traits, `none` when the `auto_traits` key was
omitted entirely. -/
structure Decl where
  target : Nat
  base_traits : List Nat
  auto_traits_opt : Option (List AutoTrait)
deriving DecidableEq

/-- The INPUT rule of the `DynCast!` generator: when `auto_traits` is not
specified it defaults to `auto_traits(Send, Sync)`; a present list, even
empty, is used verbatim. -/
def Decl.auto_traits (d : Decl) : List AutoTrait :=
  d.auto_traits_opt.getD [AutoTrait.Send, AutoTrait.Sync]

/-- The castable-type list generated for a declaration. -/
def Decl.cast_types (d : Decl) : List TypeId :=
  castTypes d.target d.base_traits d.auto_traits

/-- The `Send`/`Sync` flags recorded by STATE 1 of the generator: whether
each of the two traits occurs in the (defaulted) declared auto-trait
list. -/
def Decl.hasSendSync (d : Decl) : Bool :=
  d.auto_traits.contains AutoTrait.Send &&
    d.auto_traits.contains AutoTrait.Sync

/-- A result wrapper (`DynCastRef`/`DynCastMut`/`DynCastBox`/`DynCastRc`/
`DynCastArc` in `mod.rs`): a type-erased source pointer together with a
deferred cast function, stored behind `&dyn Any`.  `funTy` is the type
the stored function casts to (the runtime identifier under which the
function pointer was erased), and `applied` is the outcome of running the
stored function on the stored source pointer: the address of the cast
result, or `none` when the inner exact-type downcast fails. -/
structure Wrapper where
  funTy : TypeId
  applied : Option Nat
deriving DecidableEq

/-- `cast::<T>()` on a result wrapper: downcast the stored function
pointer to the function type casting to `T` — which succeeds exactly when
`T` is the type the wrapper was built for — then run it on the stored
source pointer. -/
def Wrapper.cast (w : Wrapper) (T : TypeId) : Option Nat :=
  if T = w.funTy then w.applied else none

/-- An implementation of the object-safe `DynCast` trait of `mod.rs`, for
one fixed receiver object: the membership test `dyn_can_cast` and the five
ownership-kind dispatch methods, each taking the requested runtime type
identifier and returning a result wrapper on a successful match. -/
structure DynCastImpl where
  dyn_can_cast : TypeId → Bool
  dyn_cast_ref : TypeId → Option Wrapper
  dyn_cast_mut : TypeId → Option Wrapper
  dyn_cast_box : TypeId → Option Wrapper
  dyn_cast_rc : TypeId → Option Wrapper
  dyn_cast_arc : TypeId → Option Wrapper

/-- Outcome of a borrowed-kind extension call (`cast_ref`/`cast_mut`):
a successful cast carrying the result address, an ordinary miss
(`None` in Rust), or a panic raised by `.expect(DYNCAST_ERR)`. -/
inductive RefOutcome where
  | ok (addr : Nat) | miss | panicked
deriving DecidableEq, Repr

/-- Outcome of an owned-kind extension call (`cast_box`/`cast_rc`/
`cast_arc`): a successful cast carrying the result address, failure
returning the original pointer (`Err(self)` in Rust), or a panic raised
by `.expect(DYNCAST_ERR)`. -/
inductive OwnedOutcome where
  | ok (addr : Nat) | err (orig : Nat) | panicked
deriving DecidableEq, Repr

/-- The runtime identifier of `dyn Any + Send + Sync`, the extra type
`DynCastExt::cast_arc` requires castability to. -/
def anySendSync : TypeId :=
  TypeId.view BaseTrait.any {AutoTrait.Send, AutoTrait.Sync}

/-- `DynCastExt::can_cast::<T>()`: delegates to `dyn_can_cast`. -/
def can_cast (I : DynCastImpl) (T : TypeId) : Bool :=
  I.dyn_can_cast T

/-- `DynCastExt::cast_ref::<T>()` from `mod.rs`: dispatch, propagate a
miss as a miss, and finalize the wrapper at `T`, panicking via
`.expect(DYNCAST_ERR)` when finalization fails. -/
def cast_ref (I : DynCastImpl) (T : TypeId) : RefOutcome :=
  match I.dyn_cast_ref T with
  | none => RefOutcome.miss
  | some w =>
    match w.cast T with
    | some v => RefOutcome.ok v
    | none => RefOutcome.panicked

/-- `DynCastExt::cast_mut::<T>()` from `mod.rs`. -/
def cast_mut (I : DynCastImpl) (T : TypeId) : RefOutcome :=
  match I.dyn_cast_mut T with
  | none => RefOutcome.miss
  | some w =>
    match w.cast T with
    | some v => RefOutcome.ok v
    | none => RefOutcome.panicked

/-- `DynCastExt::cast_box::<T>()` from `mod.rs`: if `can_cast` fails,
return the original box in `Err`; otherwise both the dispatch result and
the wrapper finalization are unwrapped with `.expect(DYNCAST_ERR)`,
panicking on failure. -/
def cast_box (I : DynCastImpl) (orig : Nat) (T : TypeId) : OwnedOutcome :=
  if I.dyn_can_cast T = false then OwnedOutcome.err orig
  else
    match I.dyn_cast_box T with
    | none => OwnedOutcome.panicked
    | some w =>
      match w.cast T with
      | some v => OwnedOutcome.ok v
      | none => OwnedOutcome.panicked

/-- `DynCastExt::cast_rc::<T>()` from `mod.rs`. -/
def cast_rc (I : DynCastImpl) (orig : Nat) (T : TypeId) : OwnedOutcome :=
  if I.dyn_can_cast T = false then OwnedOutcome.err orig
  else
    match I.dyn_cast_rc T with
    | none => OwnedOutcome.panicked
    | some w =>
      match w.cast T with
      | some v => OwnedOutcome.ok v
      | none => OwnedOutcome.panicked

/-- `DynCastExt::cast_arc::<T>()` from `mod.rs`: like `cast_rc`, but
additionally returns the original pointer in `Err` when the object cannot
also be cast to `dyn Any + Send + Sync`. -/
def cast_arc (I : DynCastImpl) (orig : Nat) (T : TypeId) : OwnedOutcome :=
  if I.dyn_can_cast T = false then OwnedOutcome.err orig
  else if I.dyn_can_cast anySendSync = false then OwnedOutcome.err orig
  else
    match I.dyn_cast_arc T with
    | none => OwnedOutcome.panicked
    | some w =>
      match w.cast T with
      | some v => OwnedOutcome.ok v
      | none => OwnedOutcome.panicked

/-- STATE 5 of the `DynCast!` generator, specialised to a receiver whose
erased concrete type is the declared target and whose address is `a`: the
generated method scans the castable-type list with an `if`/`else if`
chain, and on the first identifier equal to `to` returns a wrapper whose
deferred function downcasts to the target type (which succeeds on this
receiver, preserving its address) and then coerces to the matched type. -/
def genDispatch (d : Decl) (a : Nat) (tid : TypeId) : Option Wrapper :=
  (d.cast_types.find? (fun c => c = tid)).map
    (fun c => { funTy := c, applied := some a })

/-- The full `DynCast` implementation generated by `DynCast!` for a
declaration `d`, specialised to a receiver of the declared target type at
address `a`: `dyn_can_cast` tests membership in the castable-type list;
the `ref`, `mut`, `box` and `rc` methods scan that list (STATE 5); the
`arc` method does the same when the `Send` and `Sync` flags are both set
(STATE 4), and otherwise is generated over an empty castable-type list,
refusing every identifier. -/
def genImpl (d : Decl) (a : Nat) : DynCastImpl where
  dyn_can_cast := fun tid => d.cast_types.contains tid
  dyn_cast_ref := genDispatch d a
  dyn_cast_mut := genDispatch d a
  dyn_cast_box := genDispatch d a
  dyn_cast_rc := genDispatch d a
  dyn_cast_arc := fun tid => if d.hasSendSync then genDispatch d a tid else none

/-- A result wrapper whose stored function was erased under a type other
than the one the dispatcher will be asked about: finalizing it at
`TypeId.concrete 0` fails. -/
def badWrapper : Wrapper :=
  { funTy := TypeId.concrete 1, applied := some 0 }

/-- A hand-written, contract-breaking `DynCast` implementation: its
membership test accepts everything and every dispatch method claims a
successful match, but the wrapper it returns finalizes only at a
different type. -/
def badImpl : DynCastImpl where
  dyn_can_cast := fun _ => true
  dyn_cast_ref := fun _ => some badWrapper
  dyn_cast_mut := fun _ => some badWrapper
  dyn_cast_box := fun _ => some badWrapper
  dyn_cast_rc := fun _ => some badWrapper
  dyn_cast_arc := fun _ => some badWrapper

/-! ### Lemmas about the generated castable-type list -/

/-- The powerset fold of STATE 2 doubles the length of the accumulator at
each step. -/
lemma length_foldl_autoSetsStep (as : List AutoTrait) :
    ∀ acc : List (List AutoTrait),
      (as.foldl autoSetsStep acc).length = 2 ^ as.length * acc.length := by
  induction as with
  | nil => intro acc; simp
  | cons a as ih =>
    intro acc
    simp only [List.foldl_cons, ih, autoSetsStep, List.length_append,
      List.length_map, List.length_cons, pow_succ]
    ring

/-- STATE 2 produces `2 ^ m` auto-trait subsets for `m` declared auto
traits. -/
lemma length_autoSets (as : List AutoTrait) :
    (autoSets as).length = 2 ^ as.length := by
  simp [autoSets, length_foldl_autoSetsStep]

/-- Characterisation of the sets reached by the STATE 2 fold from an
arbitrary accumulator: exactly the unions of an accumulator entry with a
subset of the remaining declared auto traits. -/
lemma mem_map_toFinset_foldl (as : List AutoTrait) :
    ∀ (acc : List (List AutoTrait)) (S : Finset AutoTrait),
      S ∈ (as.foldl autoSetsStep acc).map List.toFinset ↔
        ∃ A ∈ acc, ∃ T : Finset AutoTrait,
          T ⊆ as.toFinset ∧ S = A.toFinset ∪ T := by
  induction as with
  | nil =>
    intro acc S
    simp only [List.foldl_nil, List.mem_map, List.toFinset_nil,
      Finset.subset_empty]
    constructor
    · rintro ⟨A, hA, rfl⟩
      exact ⟨A, hA, ∅, rfl, by simp⟩
    · rintro ⟨A, hA, T, rfl, rfl⟩
      exact ⟨A, hA, by simp⟩
  | cons a as ih =>
    intro acc S
    rw [List.foldl_cons, ih]
    constructor
    · rintro ⟨A, hA, T, hT, rfl⟩
      rcases List.mem_append.mp hA with hA | hA
      · exact ⟨A, hA, T, hT.trans (by simp [Finset.subset_insert]), rfl⟩
      · rcases List.mem_map.mp hA with ⟨A0, hA0, rfl⟩
        refine ⟨A0, hA0, insert a T, ?_, ?_⟩
        · simp only [List.toFinset_cons]
          exact Finset.insert_subset_insert a hT
        · ext x
          simp only [List.toFinset_append, List.toFinset_cons,
            List.toFinset_nil, Finset.mem_union, Finset.mem_insert,
            Finset.mem_singleton, Finset.not_mem_empty, or_false]
          tauto
    · rintro ⟨A, hA, T, hT, rfl⟩
      simp only [List.toFinset_cons] at hT
      by_cases haT : a ∈ T
      · refine ⟨A ++ [a], List.mem_append.mpr (Or.inr ?_), T.erase a, ?_, ?_⟩
        · exact List.mem_map.mpr ⟨A, hA, rfl⟩
        · intro x hx
          rcases Finset.mem_erase.mp hx with ⟨hxa, hxT⟩
          rcases Finset.mem_insert.mp (hT hxT) with h | h
          · exact absurd h hxa
          · exact h
        · ext x
          simp only [List.toFinset_append, List.toFinset_cons,
            List.toFinset_nil, Finset.mem_union, Finset.mem_erase,
            Finset.mem_insert, Finset.mem_singleton, Finset.not_mem_empty,
            or_false, false_or]
          by_cases hxa : x = a
          · subst hxa; tauto
          · tauto
      · refine ⟨A, List.mem_append.mpr (Or.inl hA), T, ?_, rfl⟩
        intro x hx
        rcases Finset.mem_insert.mp (hT hx) with h | h
        · exact absurd (h ▸ hx) haT
        · exact h

/-- The auto-trait subsets computed by STATE 2, viewed as finite sets,
are exactly the subsets of the declared auto traits. -/
lemma mem_map_toFinset_autoSets (as : List AutoTrait) (S : Finset AutoTrait) :
    S ∈ (autoSets as).map List.toFinset ↔ S ⊆ as.toFinset := by
  rw [autoSets, mem_map_toFinset_foldl]
  constructor
  · rintro ⟨A, hA, T, hT, rfl⟩
    simp only [List.mem_singleton] at hA
    subst hA
    simpa using hT
  · intro h
    exact ⟨[], by simp, S, h, by simp⟩

/-- From an accumulator whose entries denote pairwise-distinct sets none
of which meets the remaining declared auto traits, the STATE 2 fold keeps
the denoted sets pairwise distinct, provided the declared auto traits are
distinct. -/
lemma nodup_map_toFinset_foldl (as : List AutoTrait) (ha : as.Nodup) :
    ∀ acc : List (List AutoTrait),
      (acc.map List.toFinset).Nodup → (∀ A ∈ acc, ∀ x ∈ as, x ∉ A) →
      ((as.foldl autoSetsStep acc).map List.toFinset).Nodup := by
  induction as with
  | nil => intro acc hacc _; simpa using hacc
  | cons a as ih =>
    intro acc hacc hdisj
    rcases List.nodup_cons.mp ha with ⟨hnotin, ha'⟩
    rw [List.foldl_cons]
    refine ih ha' _ ?_ ?_
    · rw [autoSetsStep, List.map_append, List.map_map]
      have hfact : (List.toFinset ∘ fun A => A ++ [a])
          = (fun S => insert a S) ∘ List.toFinset := by
        funext A
        simp [Function.comp, Finset.insert_eq, Finset.union_comm]
      rw [hfact, ← List.map_map]
      refine List.nodup_append.mpr ⟨hacc, ?_, ?_⟩
      · refine (List.Nodup.map_on ?_ hacc)
        rintro S hS Q hQ hEq
        rcases List.mem_map.mp hS with ⟨A, hA, rfl⟩
        rcases List.mem_map.mp hQ with ⟨B, hB, rfl⟩
        have haA : a ∉ A.toFinset := by
          simp only [List.mem_toFinset]
          exact hdisj A hA a (List.mem_cons_self a as)
        have haB : a ∉ B.toFinset := by
          simp only [List.mem_toFinset]
          exact hdisj B hB a (List.mem_cons_self a as)
        have := congrArg (fun S => Finset.erase S a) hEq
        simpa [Finset.erase_insert haA, Finset.erase_insert haB] using this
      · intro S hS hS'
        rcases List.mem_map.mp hS with ⟨A, hA, rfl⟩
        rcases List.mem_map.mp hS' with ⟨B, _, hEq⟩
        have haA : a ∉ A.toFinset := by
          simp only [List.mem_toFinset]
          exact hdisj A hA a (List.mem_cons_self a as)
        have : a ∈ A.toFinset := by
          rw [← hEq]; exact Finset.mem_insert_self a _
        exact haA this
    · intro A hA x hx
      rcases List.mem_append.mp hA with hA | hA
      · exact hdisj A hA x (List.mem_cons_of_mem a hx)
      · rcases List.mem_map.mp hA with ⟨A0, hA0, rfl⟩
        intro hmem
        rcases List.mem_append.mp hmem with h | h
        · exact hdisj A0 hA0 x (List.mem_cons_of_mem a hx) h
        · simp only [List.mem_singleton] at h
          exact hnotin (h ▸ hx)

/-- For distinct declared auto traits, the subsets computed by STATE 2
are pairwise distinct as finite sets. -/
lemma nodup_map_toFinset_autoSets (as : List AutoTrait) (ha : as.Nodup) :
    ((autoSets as).map List.toFinset).Nodup := by
  refine nodup_map_toFinset_foldl as ha [[]] (by simp) ?_
  intro A hA x _
  simp only [List.mem_singleton] at hA
  subst hA
  simp

/-- The base-trait list after the INPUT stage has no duplicates when the
declared base traits have none (`Any` and `DynCast` are excluded as
declared base traits by the contract of the generator). -/
lemma nodup_allBases (bs : List Nat) (hb : bs.Nodup) :
    (allBases bs).Nodup := by
  simp only [allBases, List.nodup_cons, List.mem_cons, List.mem_map]
  refine ⟨?_, ?_, hb.map (fun x y h => BaseTrait.decl.inj h)⟩
  · rintro (h | ⟨n, _, h⟩) <;> exact absurd h (by simp)
  · rintro ⟨n, _, h⟩; exact absurd h (by simp)

/-- Every member of the generated castable-type list is the concrete
target or a trait object over a base trait from the extended list with a
subset of the declared auto traits as markers. -/
lemma mem_castTypes (t : Nat) (bs : List Nat) (as : List AutoTrait)
    (tid : TypeId) :
    tid ∈ castTypes t bs as ↔
      tid = TypeId.concrete t ∨
        ∃ b ∈ allBases bs, ∃ M : Finset AutoTrait,
          M ⊆ as.toFinset ∧ tid = TypeId.view b M := by
  simp only [castTypes, List.mem_cons, List.mem_flatMap, List.mem_map]
  constructor
  · rintro (rfl | ⟨b, hb, A, hA, rfl⟩)
    · exact Or.inl rfl
    · refine Or.inr ⟨b, hb, A.toFinset, ?_, rfl⟩
      rw [← mem_map_toFinset_autoSets]
      exact List.mem_map.mpr ⟨A, hA, rfl⟩
  · rintro (rfl | ⟨b, hb, M, hM, rfl⟩)
    · exact Or.inl rfl
    · rcases List.mem_map.mp ((mem_map_toFinset_autoSets as M).mpr hM)
        with ⟨A, hA, rfl⟩
      exact Or.inr ⟨b, hb, A, hA, rfl⟩

/-- A trait-object identifier is castable exactly when its base trait is
the extended base-trait list and its markers are a subset of the declared
auto traits. -/
lemma view_mem_castTypes (t : Nat) (bs : List Nat) (as : List AutoTrait)
    (b : BaseTrait) (M : Finset AutoTrait) :
    TypeId.view b M ∈ castTypes t bs as ↔
      b ∈ allBases bs ∧ M ⊆ as.toFinset := by
  rw [mem_castTypes]
  constructor
  · rintro (h | ⟨b', hb', M', hM', h⟩)
    · exact absurd h (by simp)
    · rcases TypeId.view.inj h with ⟨rfl, rfl⟩
      exact ⟨hb', hM'⟩
  · rintro ⟨hb, hM⟩
    exact Or.inr ⟨b, hb, M, hM, rfl⟩

/-- A concrete-type identifier is castable exactly when it is the target
type. -/
lemma concrete_mem_castTypes (t : Nat) (bs : List Nat) (as : List AutoTrait)
    (c : Nat) :
    TypeId.concrete c ∈ castTypes t bs as ↔ c = t := by
  rw [mem_castTypes]
  constructor
  · rintro (h | ⟨b, _, M, _, h⟩)
    · exact TypeId.concrete.inj h
    · exact absurd h (by simp)
  · rintro rfl; exact Or.inl rfl

/-- The generated castable-type list has no duplicates when the declared
base traits and auto traits have none. -/
lemma nodup_castTypes (t : Nat) (bs : List Nat) (as : List AutoTrait)
    (hb : bs.Nodup) (ha : as.Nodup) :
    (castTypes t bs as).Nodup := by
  rw [castTypes, List.nodup_cons]
  constructor
  · intro h
    rcases List.mem_flatMap.mp h with ⟨b, _, h⟩
    rcases List.mem_map.mp h with ⟨A, _, h⟩
    exact absurd h (by simp)
  · rw [List.nodup_flatMap]
    constructor
    · intro b _
      have : (autoSets as).map (fun A => TypeId.view b A.toFinset)
          = ((autoSets as).map List.toFinset).map (fun M => TypeId.view b M) := by
        rw [List.map_map]; rfl
      rw [this]
      exact (nodup_map_toFinset_autoSets as ha).map
        (fun x y h => (TypeId.view.inj h).2)
    · refine List.Pairwise.imp_of_mem ?_ (nodup_allBases bs hb)
      intro b1 b2 _ _ hne tid h1 h2
      rcases List.mem_map.mp h1 with ⟨A1, _, rfl⟩
      rcases List.mem_map.mp h2 with ⟨A2, _, h⟩
      exact hne (TypeId.view.inj h).1.symm

/-- The length of a concatenation of equally long blocks. -/
lemma length_flatMap_const {α β : Type} (L : List α) (f : α → List β)
    (k : Nat) (h : ∀ b ∈ L, (f b).length = k) :
    (L.flatMap f).length = L.length * k := by
  induction L with
  | nil => simp
  | cons b L ih =>
    simp only [List.flatMap_cons, List.length_append, List.length_cons]
    rw [h b (List.mem_cons_self b L),
      ih (fun x hx => h x (List.mem_cons_of_mem b hx))]
    ring

/-- The generated castable-type list has `1 + (n + 2) * 2 ^ m` entries
for `n` declared base traits and `m` declared auto traits. -/
lemma length_castTypes (t : Nat) (bs : List Nat) (as : List AutoTrait) :
    (castTypes t bs as).length
      = 1 + (bs.length + 2) * 2 ^ as.length := by
  rw [castTypes, List.length_cons, length_flatMap_const _ _ (2 ^ as.length)
    (fun b _ => by simp [length_autoSets])]
  simp only [allBases, List.length_cons, List.length_map]
  ring

/-! ### Lemmas about the generated implementation and the extension API -/

/-- The generated membership test holds exactly on the castable-type
list. -/
lemma genImpl_can_cast_iff (d : Decl) (a : Nat) (tid : TypeId) :
    can_cast (genImpl d a) tid = true ↔ tid ∈ d.cast_types := by
  simp only [can_cast, genImpl]
  exact List.elem_iff

/-- The generated scan yields a wrapper exactly on the castable-type
list. -/
lemma genDispatch_isSome_iff (d : Decl) (a : Nat) (tid : TypeId) :
    (genDispatch d a tid).isSome = true ↔ tid ∈ d.cast_types := by
  rw [genDispatch]
  rcases hfind : d.cast_types.find? (fun c => c = tid) with _ | c
  · simp only [Option.map_none', Option.isSome_none, Bool.false_eq_true,
      false_iff]
    intro h
    exact absurd (List.find?_eq_none.mp hfind tid h) (by simp)
  · simp only [Option.map_some', Option.isSome_some, true_iff]
    have hc := List.find?_some hfind
    simp only [decide_eq_true_eq] at hc
    subst hc
    exact List.mem_of_find?_eq_some hfind

/-- On a castable identifier, the generated scan returns the wrapper
specialised for that identifier, deferring a downcast that succeeds on
the receiver and preserves its address. -/
lemma genDispatch_eq_some (d : Decl) (a : Nat) (tid : TypeId)
    (h : tid ∈ d.cast_types) :
    genDispatch d a tid = some { funTy := tid, applied := some a } := by
  rcases hfind : d.cast_types.find? (fun c => c = tid) with _ | c
  · exact absurd (List.find?_eq_none.mp hfind tid h) (by simp)
  · have hc := List.find?_some hfind
    simp only [decide_eq_true_eq] at hc
    subst hc
    simp [genDispatch, hfind]

/-- On an identifier outside the castable-type list, the generated scan
exhausts and returns nothing. -/
lemma genDispatch_eq_none (d : Decl) (a : Nat) (tid : TypeId)
    (h : tid ∉ d.cast_types) :
    genDispatch d a tid = none := by
  have : d.cast_types.find? (fun c => c = tid) = none :=
    List.find?_eq_none.mpr (fun x hx => by
      simp only [decide_eq_true_eq]
      rintro rfl
      exact h hx)
  simp [genDispatch, this]

/-- The generated membership test accepts `dyn Any + Send + Sync` exactly
when `Send` and `Sync` are both among the (defaulted) declared auto
traits. -/
lemma genImpl_can_cast_anySendSync (d : Decl) (a : Nat) :
    can_cast (genImpl d a) anySendSync = true ↔
      AutoTrait.Send ∈ d.auto_traits ∧ AutoTrait.Sync ∈ d.auto_traits := by
  rw [genImpl_can_cast_iff, Decl.cast_types, anySendSync,
    view_mem_castTypes]
  simp [allBases, Finset.insert_subset_iff, Finset.singleton_subset_iff]

/-- `cast_arc` returns the original pointer whenever the receiver cannot
be cast to `dyn Any + Send + Sync`, for any requested identifier. -/
lemma cast_arc_err_of_not_anySendSync (I : DynCastImpl) (orig : Nat)
    (T : TypeId) (h : I.dyn_can_cast anySendSync = false) :
    cast_arc I orig T = OwnedOutcome.err orig := by
  by_cases h1 : I.dyn_can_cast T = false <;> simp [cast_arc, h1, h]

/-! ### Claim theorems -/

/-- C1: For every concrete type generated with `n` distinct declared
interfaces (base traits) and `m` distinct declared markers (auto traits),
the enumerated castable set has exactly `1 + (n + 2) * 2 ^ m` elements:
the concrete type itself, plus each of the `n` interfaces together with
the two always-present capabilities (`dyn Any`, `dyn DynCast`), each
combined with every one of the `2 ^ m` subsets of the declared
markers. -/
theorem castable_set_size (t : Nat) (bs : List Nat) (as : List AutoTrait)
    (hb : bs.Nodup) (ha : as.Nodup) :
    (castTypes t bs as).toFinset.card
      = 1 + (bs.length + 2) * 2 ^ as.length := by
  rw [List.toFinset_card_of_nodup (nodup_castTypes t bs as hb ha),
    length_castTypes]

/-- Witness for `castable_set_size` at one declared interface pair and
one declared marker: `1 + (2 + 2) * 2 = 9` castable types. -/
theorem castable_set_size_witness :
    ([3, 4] : List Nat).Nodup ∧ ([AutoTrait.Send] : List AutoTrait).Nodup ∧
      (castTypes 0 [3, 4] [AutoTrait.Send]).toFinset.card = 9 :=
  ⟨by decide, by decide,
    by
      simpa using castable_set_size 0 [3, 4] [AutoTrait.Send]
        (by decide) (by decide)⟩

/-- C2 (amended): the generated membership test and the generated
dispatch functions agree for the borrowed-immutable, borrowed-mutable,
exclusively-owned and shared kinds; for the shared-atomic kind, dispatch
returns a wrapper exactly when the membership test succeeds AND both
`Send` and `Sync` are among the declared markers — without both markers
the shared-atomic dispatch returns nothing even on identifiers the
membership test accepts. -/
theorem dispatch_matches_membership (d : Decl) (a : Nat) (tid : TypeId) :
    (((genImpl d a).dyn_cast_ref tid).isSome = true ↔
      can_cast (genImpl d a) tid = true) ∧
    (((genImpl d a).dyn_cast_mut tid).isSome = true ↔
      can_cast (genImpl d a) tid = true) ∧
    (((genImpl d a).dyn_cast_box tid).isSome = true ↔
      can_cast (genImpl d a) tid = true) ∧
    (((genImpl d a).dyn_cast_rc tid).isSome = true ↔
      can_cast (genImpl d a) tid = true) ∧
    (((genImpl d a).dyn_cast_arc tid).isSome = true ↔
      (d.hasSendSync = true ∧ can_cast (genImpl d a) tid = true)) := by
  have hgen : (genDispatch d a tid).isSome = true ↔
      can_cast (genImpl d a) tid = true :=
    (genDispatch_isSome_iff d a tid).trans
      (genImpl_can_cast_iff d a tid).symm
  refine ⟨hgen, hgen, hgen, hgen, ?_⟩
  rcases hss : d.hasSendSync with _ | _
  · have harc : (genImpl d a).dyn_cast_arc tid = none := by
      show (if d.hasSendSync then genDispatch d a tid else none) = none
      rw [hss]; rfl
    rw [harc]
    simp
  · have harc : (genImpl d a).dyn_cast_arc tid = genDispatch d a tid := by
      show (if d.hasSendSync then genDispatch d a tid else none)
        = genDispatch d a tid
      rw [hss]; rfl
    rw [harc, hgen]
    simp

/-- Counterexample to C2 as stated: for a type generated with an empty
marker list, the shared-atomic dispatch returns nothing on the concrete
type identifier although the membership test accepts it, so dispatch and
membership do not agree on all five kinds. -/
theorem dispatch_matches_membership_counterexample :
    ¬ (((genImpl ⟨0, [], some []⟩ 0).dyn_cast_arc
          (TypeId.concrete 0)).isSome = true ↔
        can_cast (genImpl ⟨0, [], some []⟩ 0) (TypeId.concrete 0) = true) := by
  decide

/-- C3: For every concrete type whose declared marker list does not
contain both `Send` and `Sync`, `cast_arc` fails for every type argument
— including the concrete type itself — regardless of which interfaces are
declared; the shared-atomic operation remains callable but returns the
original pointer in `Err` unconditionally. -/
theorem arc_casting_fails_without_both_markers (d : Decl) (a orig : Nat)
    (T : TypeId)
    (h : ¬(AutoTrait.Send ∈ d.auto_traits ∧
           AutoTrait.Sync ∈ d.auto_traits)) :
    cast_arc (genImpl d a) orig T = OwnedOutcome.err orig := by
  refine cast_arc_err_of_not_anySendSync _ _ _ ?_
  rcases hcc : (genImpl d a).dyn_can_cast anySendSync with _ | _
  · rfl
  · exact absurd ((genImpl_can_cast_anySendSync d a).mp hcc) h

/-- Witness for `arc_casting_fails_without_both_markers` at a type with
one declared interface and only the `Send` marker: the exact-type
shared-atomic cast fails. -/
theorem arc_casting_fails_without_both_markers_witness :
    (¬(AutoTrait.Send ∈ Decl.auto_traits ⟨0, [5], some [AutoTrait.Send]⟩ ∧
       AutoTrait.Sync ∈ Decl.auto_traits ⟨0, [5], some [AutoTrait.Send]⟩)) ∧
      cast_arc (genImpl ⟨0, [5], some [AutoTrait.Send]⟩ 3) 7
        (TypeId.concrete 0) = OwnedOutcome.err 7 :=
  ⟨by decide,
    arc_casting_fails_without_both_markers ⟨0, [5], some [AutoTrait.Send]⟩ 3 7
      (TypeId.concrete 0) (by decide)⟩

/-- C4: For every generated concrete type and every type argument not
castable to, `cast_box` returns `Err` containing the original box
unchanged — the pointer is never dropped on a failed cast — and likewise
`cast_rc` and `cast_arc` return the original pointer in `Err` on a
non-matching cast. -/
theorem failed_owned_cast_returns_original (d : Decl) (a orig : Nat)
    (T : TypeId) (h : can_cast (genImpl d a) T = false) :
    cast_box (genImpl d a) orig T = OwnedOutcome.err orig ∧
    cast_rc (genImpl d a) orig T = OwnedOutcome.err orig ∧
    cast_arc (genImpl d a) orig T = OwnedOutcome.err orig := by
  have hc : (genImpl d a).dyn_can_cast T = false := h
  exact ⟨by simp [cast_box, hc], by simp [cast_rc, hc],
    by simp [cast_arc, hc]⟩

/-- Witness for `failed_owned_cast_returns_original` at an undeclared
interface identifier. -/
theorem failed_owned_cast_returns_original_witness :
    can_cast (genImpl ⟨0, [], none⟩ 3)
        (TypeId.view (BaseTrait.decl 5) ∅) = false ∧
      cast_box (genImpl ⟨0, [], none⟩ 3) 7
        (TypeId.view (BaseTrait.decl 5) ∅) = OwnedOutcome.err 7 :=
  ⟨by decide,
    (failed_owned_cast_returns_original ⟨0, [], none⟩ 3 7
      (TypeId.view (BaseTrait.decl 5) ∅) (by decide)).1⟩

/-- C5: For every generated concrete type and every type argument,
`cast_arc` succeeds only if the object can also be cast to
`dyn Any + Send + Sync`; when that additional cast is not possible,
`cast_arc` returns `Err` with the original pointer for every type
argument — even one on which `can_cast` is true, as the witness
shows. -/
theorem arc_casting_requires_concurrent_base (d : Decl) (a orig : Nat)
    (T : TypeId) (h : can_cast (genImpl d a) anySendSync = false) :
    cast_arc (genImpl d a) orig T = OwnedOutcome.err orig :=
  cast_arc_err_of_not_anySendSync _ _ _ h

/-- Witness for `arc_casting_requires_concurrent_base` at a type with an
empty marker list and its own concrete identifier: `can_cast` holds and
yet `cast_arc` fails. -/
theorem arc_casting_requires_concurrent_base_witness :
    can_cast (genImpl ⟨0, [], some []⟩ 3) (TypeId.concrete 0) = true ∧
      can_cast (genImpl ⟨0, [], some []⟩ 3) anySendSync = false ∧
      cast_arc (genImpl ⟨0, [], some []⟩ 3) 7 (TypeId.concrete 0)
        = OwnedOutcome.err 7 :=
  ⟨by decide, by decide,
    arc_casting_requires_concurrent_base ⟨0, [], some []⟩ 3 7
      (TypeId.concrete 0) (by decide)⟩

/-- C6: For every generated concrete type `S` and every instance of `S`
(held through any of its castable views, which all dispatch to the same
generated implementation), `cast_ref::<S>()` always succeeds and the
returned reference has the same address as the original reference. -/
theorem cast_ref_to_concrete_succeeds_same_address (d : Decl) (a : Nat) :
    cast_ref (genImpl d a) (TypeId.concrete d.target) = RefOutcome.ok a := by
  have hmem : TypeId.concrete d.target ∈ d.cast_types := by
    rw [Decl.cast_types]
    exact (concrete_mem_castTypes _ _ _ _).mpr rfl
  simp [cast_ref, genImpl, genDispatch_eq_some d a _ hmem, Wrapper.cast]

/-- C7: The castable set of every generated concrete type is closed under
marker-subset removal: whenever a base view qualified by a marker set `M`
is in the castable set, the same view qualified by any subset of `M` —
including the empty subset — is also in the castable set. -/
theorem castable_set_closed_under_marker_removal (d : Decl)
    (b : BaseTrait) (M Msub : Finset AutoTrait)
    (hmem : TypeId.view b M ∈ d.cast_types) (hsub : Msub ⊆ M) :
    TypeId.view b Msub ∈ d.cast_types := by
  rw [Decl.cast_types, view_mem_castTypes] at hmem ⊢
  exact ⟨hmem.1, hsub.trans hmem.2⟩

/-- Witness for `castable_set_closed_under_marker_removal`: from the
castable `dyn Any + Send + Sync` view of a default declaration down to
`dyn Any + Sync`. -/
theorem castable_set_closed_under_marker_removal_witness :
    (TypeId.view BaseTrait.any {AutoTrait.Send, AutoTrait.Sync}
        ∈ Decl.cast_types ⟨0, [], none⟩) ∧
      ({AutoTrait.Sync} : Finset AutoTrait)
        ⊆ {AutoTrait.Send, AutoTrait.Sync} ∧
      TypeId.view BaseTrait.any {AutoTrait.Sync}
        ∈ Decl.cast_types ⟨0, [], none⟩ :=
  ⟨by decide, by decide,
    castable_set_closed_under_marker_removal ⟨0, [], none⟩ BaseTrait.any
      {AutoTrait.Send, AutoTrait.Sync} {AutoTrait.Sync}
      (by decide) (by decide)⟩

/-- C8: For every `DynCast` implementation and every type argument, if
the dispatcher claims a successful match (a dispatch method returns a
wrapper, or the membership test succeeds) but the returned wrapper fails
to finalize at that type, then the corresponding extension routine
(`cast_ref`, `cast_mut`, `cast_box`, `cast_rc`, `cast_arc`) panics
rather than returning a value. -/
theorem finalize_mismatch_panics (I : DynCastImpl) (orig : Nat)
    (T : TypeId) (w : Wrapper) :
    (I.dyn_cast_ref T = some w → w.cast T = none →
      cast_ref I T = RefOutcome.panicked) ∧
    (I.dyn_cast_mut T = some w → w.cast T = none →
      cast_mut I T = RefOutcome.panicked) ∧
    (I.dyn_can_cast T = true → I.dyn_cast_box T = some w →
      w.cast T = none → cast_box I orig T = OwnedOutcome.panicked) ∧
    (I.dyn_can_cast T = true → I.dyn_cast_rc T = some w →
      w.cast T = none → cast_rc I orig T = OwnedOutcome.panicked) ∧
    (I.dyn_can_cast T = true → I.dyn_can_cast anySendSync = true →
      I.dyn_cast_arc T = some w → w.cast T = none →
      cast_arc I orig T = OwnedOutcome.panicked) := by
  refine ⟨?_, ?_, ?_, ?_, ?_⟩
  · intro h1 h2; simp [cast_ref, h1, h2]
  · intro h1 h2; simp [cast_mut, h1, h2]
  · intro hc h1 h2; simp [cast_box, hc, h1, h2]
  · intro hc h1 h2; simp [cast_rc, hc, h1, h2]
  · intro hc hs h1 h2; simp [cast_arc, hc, hs, h1, h2]

/-- Witness for `finalize_mismatch_panics` on the contract-breaking
implementation `badImpl`: all five extension routines panic. -/
theorem finalize_mismatch_panics_witness :
    cast_ref badImpl (TypeId.concrete 0) = RefOutcome.panicked ∧
      cast_mut badImpl (TypeId.concrete 0) = RefOutcome.panicked ∧
      cast_box badImpl 7 (TypeId.concrete 0) = OwnedOutcome.panicked ∧
      cast_rc badImpl 7 (TypeId.concrete 0) = OwnedOutcome.panicked ∧
      cast_arc badImpl 7 (TypeId.concrete 0) = OwnedOutcome.panicked := by
  have h := finalize_mismatch_panics badImpl 7 (TypeId.concrete 0) badWrapper
  exact ⟨h.1 rfl (by decide), h.2.1 rfl (by decide),
    h.2.2.1 rfl rfl (by decide), h.2.2.2.1 rfl rfl (by decide),
    h.2.2.2.2 rfl rfl rfl (by decide)⟩

/-- C9: When the declared marker list is omitted entirely it defaults to
`{Send, Sync}`, while a present-but-empty list is used verbatim; and for
a type `S` declared with zero interfaces and default markers,
`can_cast::<S>()` and `can_cast::<dyn Any + Send + Sync>()` hold, while
`can_cast` and `cast_ref` of any undeclared interface view return false
and nothing respectively. -/
theorem default_markers_and_scenario_a (t : Nat) (bs : List Nat)
    (l : List AutoTrait) (a i : Nat) (M : Finset AutoTrait) :
    Decl.auto_traits ⟨t, bs, none⟩ = [AutoTrait.Send, AutoTrait.Sync] ∧
    Decl.auto_traits ⟨t, bs, some l⟩ = l ∧
    can_cast (genImpl ⟨0, [], none⟩ a) (TypeId.concrete 0) = true ∧
    can_cast (genImpl ⟨0, [], none⟩ a) anySendSync = true ∧
    can_cast (genImpl ⟨0, [], none⟩ a)
      (TypeId.view (BaseTrait.decl i) M) = false ∧
    cast_ref (genImpl ⟨0, [], none⟩ a) (TypeId.view (BaseTrait.decl i) M)
      = RefOutcome.miss := by
  have hnot : TypeId.view (BaseTrait.decl i) M
      ∉ Decl.cast_types ⟨0, [], none⟩ := by
    rw [Decl.cast_types, view_mem_castTypes]
    rintro ⟨hb, -⟩
    simp [allBases] at hb
  refine ⟨rfl, rfl, ?_, ?_, ?_, ?_⟩
  · rw [genImpl_can_cast_iff]; decide
  · rw [genImpl_can_cast_iff]; decide
  · rcases hcc : can_cast (genImpl ⟨0, [], none⟩ a)
        (TypeId.view (BaseTrait.decl i) M) with _ | _
    · rfl
    · exact absurd ((genImpl_can_cast_iff _ _ _).mp hcc) hnot
  · simp [cast_ref, genImpl, genDispatch_eq_none ⟨0, [], none⟩ a _ hnot]

/-- C10: The membership test is one function shared by all five ownership
kinds: for a type generated with an empty marker list, `can_cast` still
accepts the concrete type and `dyn Any` while `cast_arc` returns the
original pointer in `Err` — `can_cast` never reflects the shared-atomic
rejection. -/
theorem membership_ignores_arc_restriction (d : Decl) (a : Nat)
    (h : d.auto_traits = []) :
    can_cast (genImpl d a) (TypeId.concrete d.target) = true ∧
    can_cast (genImpl d a) (TypeId.view BaseTrait.any ∅) = true ∧
    cast_arc (genImpl d a) a (TypeId.concrete d.target)
      = OwnedOutcome.err a := by
  refine ⟨?_, ?_, ?_⟩
  · rw [genImpl_can_cast_iff, Decl.cast_types]
    exact (concrete_mem_castTypes _ _ _ _).mpr rfl
  · rw [genImpl_can_cast_iff, Decl.cast_types, view_mem_castTypes]
    exact ⟨by simp [allBases], by simp⟩
  · refine cast_arc_err_of_not_anySendSync _ _ _ ?_
    rcases hcc : (genImpl d a).dyn_can_cast anySendSync with _ | _
    · rfl
    · rcases (genImpl_can_cast_anySendSync d a).mp hcc with ⟨hSend, -⟩
      rw [h] at hSend
      exact absurd hSend (List.not_mem_nil _)

/-- Witness for `membership_ignores_arc_restriction` at a declaration
with an explicitly empty marker list. -/
theorem membership_ignores_arc_restriction_witness :
    can_cast (genImpl ⟨0, [], some []⟩ 7) (TypeId.concrete 0) = true ∧
      can_cast (genImpl ⟨0, [], some []⟩ 7)
        (TypeId.view BaseTrait.any ∅) = true ∧
      cast_arc (genImpl ⟨0, [], some []⟩ 7) 7 (TypeId.concrete 0)
        = OwnedOutcome.err 7 :=
  membership_ignores_arc_restriction ⟨0, [], some []⟩ 7 rfl

end DynCastModel
